import Mathlib

/-!
Shallow embedding of `renpy2flatpak-mark2.py`, a script that packages a
Ren'Py game into a flatpak.  The embedding models the manifest-synthesis
core: content hashing (`sha256`), app-identifier synthesis
(`sanitize_name` and the appid expression from `main`), the launcher
descriptor builder (`create_desktop`), the catalog metadata builder
(`create_appdata`) and the manifest builder (`dump_json`).

Modelling conventions:
* The filesystem is a map from path strings to optional byte lists; a
  `none` entry is an unreadable file (Python `OSError`/`IOError` from
  `path.open`).
* The SHA-256 algorithm itself (Python `hashlib`) is abstracted as a
  function `hash : List Nat → String` carried in the environment; the
  script only composes it with file reads.
* Python exceptions are modelled with `Except`: `OSError` raised while
  hashing becomes `Err.ioError` (the spec's `HashingError`), and the
  `ValueError` raised when a patch specification does not unpack into
  exactly a `(source, destination)` pair becomes
  `Err.configurationError` (the spec's `ConfigurationError`).
* Writing the manifest file is modelled by returning the manifest value
  in the `ok` case; an exception means nothing is written.
-/

/-- Errors that can abort manifest assembly. -/
inductive Err where
  | ioError
  | configurationError
deriving DecidableEq, Repr

/-- The ambient environment of a run: the readable files with their
bytes, the content-hash function (abstracting `hashlib.sha256(...).hexdigest()`),
and the current working directory used by `pathlib.Path.absolute`. -/
structure Env where
  fs : String → Option (List Nat)
  hash : List Nat → String
  cwd : String

/-- Model of `sha256` from the script: open the file, read it fully, hash it.
An unreadable file raises `IOError`. -/
def sha256 (env : Env) (path : String) : Except Err String :=
  match env.fs path with
  | some bytes => .ok (env.hash bytes)
  | none => .error .ioError

/-- Model of `pathlib.Path(p).absolute()`: prefix the working directory unless the
path is already absolute. -/
def pathAbsolute (cwd p : String) : String :=
  if p.startsWith "/" then p else cwd ++ "/" ++ p

/-- Model of `pathlib.Path(p).name`: the final path component. -/
def pathName (p : String) : String :=
  ((p.splitOn "/").getLast?).getD ""

/-- Model of `sanitize_name` from the script:
`name.replace(' ', '_').replace(':', '')`.  Both patterns are single
characters, so Python's `str.replace` is exactly a character map
(space to underscore) followed by dropping every colon. -/
def sanitize_name (name : String) : String :=
  String.mk (((name.data.map fun c => if c = ' ' then '_' else c).filter
    fun c => c ≠ ':'))

/-- The `common` table of a description. -/
structure Common where
  reverse_url : String
  name : String
  categories : List String
deriving DecidableEq, Repr

/-- The `appdata` table of a description; `content_rating`, `releases`
and `license` are optional keys.  The two mappings keep their (ordered)
key/value pairs. -/
structure AppData where
  summary : String
  description : String
  content_rating : Option (List (String × String))
  releases : Option (List (String × String))
  license : Option String
deriving DecidableEq, Repr

/-- The optional `workarounds` table; its `icon` key is itself optional. -/
structure Workarounds where
  icon : Option Bool
deriving DecidableEq, Repr

/-- A parsed TOML description file. -/
structure Description where
  common : Common
  appdata : AppData
  workarounds : Option Workarounds
deriving DecidableEq, Repr

/-- Model of the icon flag lookup: the workarounds table defaulting to empty, its icon key defaulting to True. -/
def iconFlag (d : Description) : Bool :=
  ((d.workarounds.getD ⟨none⟩).icon).getD true

/-- The appid expression from `main`:
`f"{reverse_url}.{sanitize_name(name)}"`. -/
def appid (d : Description) : String :=
  d.common.reverse_url ++ "." ++ sanitize_name d.common.name

/-- An XML element as built by `ElementTree`/`subelem`: tag, attributes,
optional text, children. -/
inductive Elem : Type where
  | mk : String → List (String × String) → Option String → List Elem → Elem

def Elem.tag : Elem → String
  | .mk t _ _ _ => t

def Elem.attrs : Elem → List (String × String)
  | .mk _ a _ _ => a

def Elem.text : Elem → Option String
  | .mk _ _ x _ => x

def Elem.children : Elem → List Elem
  | .mk _ _ _ c => c

/-- Model of `create_appdata`: the metainfo XML tree (the write to
`{appid}.metainfo.xml` is not modelled; the tree is the content). -/
def create_appdata (d : Description) (appId : String) : Elem :=
  .mk "component" [("type", "desktop-application")] none
    ([ .mk "id" [] (some appId) [],
       .mk "name" [] (some d.common.name) [],
       .mk "summary" [] (some d.appdata.summary) [],
       .mk "metadata_license" [] (some "CC0-1.0") [],
       .mk "project_license" [] (some (d.appdata.license.getD "LicenseRef-Proprietary")) [],
       .mk "recommends" [] none
         (["pointing", "keyboard", "touch", "gamepad"].map fun c =>
           .mk "control" [] (some c) []),
       .mk "requires" [] none
         [ .mk "display_length" [("compare", "ge")] (some "360") [],
           .mk "internet" [] (some "offline-only") [] ],
       .mk "categories" [] none
         ((["Game"] ++ d.common.categories).map fun c =>
           .mk "category" [] (some c) []),
       .mk "description" [] none [.mk "p" [] (some d.appdata.summary) []],
       .mk "launchable" [("type", "desktop-id")] (some (appId ++ ".desktop")) [] ]
     ++ (match d.appdata.content_rating with
         | some crs =>
           [Elem.mk "content_rating" [("type", "oars-1.0")] none
             (crs.map fun kr => .mk "content_attribute" [("id", kr.1)] (some kr.2) [])]
         | none => [])
     ++ (match d.appdata.releases with
         | some rs =>
           [Elem.mk "releases" [] none
             (rs.map fun kv => .mk "release" [("version", kv.1), ("date", kv.2)] none [])]
         | none => []))

/-- The desktop entry written by `create_desktop`.  The `Categories=`
line is the semicolon-join of this list (with a trailing semicolon):
`Categories=Game;{join(categories)};`. -/
structure DesktopEntry where
  name : String
  exec : String
  type : String
  categories : List String
  icon : Option String
deriving DecidableEq, Repr

/-- Model of `create_desktop`: the launcher descriptor content (the write to
`{appid}.desktop` is not modelled; the entry is the content). -/
def create_desktop (d : Description) (appId : String) : DesktopEntry :=
  { name := d.common.name
    exec := "game.sh"
    type := "Application"
    categories := "Game" :: d.common.categories
    icon := if iconFlag d then some appId else none }

/-- A source reference inside a module (`path`, `sha256`, `type`). -/
structure Source where
  path : String
  sha256 : String
  type : String
deriving DecidableEq, Repr

/-- A build module: `buildsystem`, `name`, `sources`, `build-commands`,
and (only on the main module) a `cleanup` list. -/
structure BuildModule where
  buildsystem : String
  name : String
  sources : List Source
  build_commands : List String
  cleanup : Option (List String)
deriving DecidableEq, Repr

/-- The flatpak-builder manifest written by `dump_json` (`build-options`
is flattened into its two used keys). -/
structure Manifest where
  sdk : String
  runtime : String
  runtime_version : String
  app_id : String
  no_debuginfo : Bool
  strip : Bool
  command : String
  finish_args : List String
  modules : List BuildModule
deriving DecidableEq, Repr

/-- The main module's compile step (`dump_json`, fourth build command). -/
def compileCommand : String :=
  "pushd /app/lib/game; ./*.sh . compile --keep-orphan-rpyc; popd"

/-- The recompile step appended after patch moves (`dump_json`, patch
branch).  A separate literal in the source, kept separate here. -/
def recompileCommand : String :=
  "pushd /app/lib/game; ./*.sh . compile --keep-orphan-rpyc; popd"

/-- The main module's four build commands. -/
def mainBuildCommands : List String :=
  [ "mkdir -p /app/lib/game",
    "mv *.sh *.py renpy game lib /app/lib/game/",
    "sed -i \x27s@\"~/.renpy/\"@os.environ.get(\"XDG_DATA_HOME\", \"~/.local/share\") + \"/\"@g\x27 /app/lib/game/*.py",
    compileCommand ]

/-- The main module's cleanup globs. -/
def mainCleanup : List String :=
  [ "*.exe",
    "*.app",
    "*.rpyc.bak",
    "*.rpy",
    "/lib/game/lib/*darwin-*",
    "/lib/game/lib/*windows-*",
    "/lib/game/lib/*-i686" ]

/-- The `game_sh` launcher-wrapper module. -/
def gameShModule : BuildModule :=
  { buildsystem := "simple"
    name := "game_sh"
    sources := []
    build_commands :=
      [ "mkdir -p /app/bin",
        "echo  \x27cd /app/lib/game/; export RENPY_PERFORMANCE_TEST=0; sh *.sh\x27 > /app/bin/game.sh",
        "chmod +x /app/bin/game.sh" ]
    cleanup := none }

/-- The icon workaround module inserted at index 1 when the icon flag is
enabled. -/
def iconModule (appId : String) : BuildModule :=
  { buildsystem := "simple"
    name := "icon"
    sources := []
    build_commands :=
      [ "mkdir -p /app/share/icons/hicolor/256x256/apps/",
        String.intercalate " ; "
          [ "if file /app/lib/game/game/gui/window_icon.png | grep \x27Web/P\x27 -q",
            "then dwebp /app/lib/game/game/gui/window_icon.png -o /app/share/icons/hicolor/256x256/apps/" ++ appId ++ ".png",
            "else cp /app/lib/game/game/gui/window_icon.png /app/share/icons/hicolor/256x256/apps/" ++ appId ++ ".png",
            "fi" ] ]
    cleanup := none }

/-- The loop over `args.patches` in `dump_json`: each specification must
unpack into exactly `(source, destination)` (otherwise `ValueError`,
modelled `configurationError`); for each pair the absolutised source is
hashed into a file reference and a move command is produced. -/
def processPatches (env : Env) : List (List String) → Except Err (List Source × List String)
  | [] => .ok ([], [])
  | [pa, d] :: rest => do
    let patch := pathAbsolute env.cwd pa
    let h ← sha256 env patch
    let (srcs, cmds) ← processPatches env rest
    .ok ({ path := patch, sha256 := h, type := "file" } :: srcs,
         ("mv " ++ pathName patch ++ " /app/lib/game/" ++ d) :: cmds)
  | _ :: _ => .error .configurationError

/-- Model of `dump_json`: assemble the manifest.  Hashing happens in the source's
evaluation order (archive, desktop file, appdata file, then each patch);
the icon module is inserted at index 1 when the icon flag is enabled;
a nonempty patch list extends the main module's sources and build
commands, appending one recompile command after all moves. -/
def dump_json (env : Env) (desc : Description) (input : String) (appId : String)
    (desktop_file appdata_file : String) (patches : List (List String)) :
    Except Err Manifest := do
  let inputHash ← sha256 env input
  let mainModule : BuildModule :=
    { buildsystem := "simple"
      name := sanitize_name desc.common.name
      sources := [{ path := input, sha256 := inputHash, type := "archive" }]
      build_commands := mainBuildCommands
      cleanup := some mainCleanup }
  let desktopHash ← sha256 env desktop_file
  let desktopModule : BuildModule :=
    { buildsystem := "simple"
      name := "desktop_file"
      sources := [{ path := desktop_file, sha256 := desktopHash, type := "file" }]
      build_commands :=
        [ "mkdir -p /app/share/applications",
          "cp " ++ pathName desktop_file ++ " /app/share/applications" ]
      cleanup := none }
  let appdataHash ← sha256 env appdata_file
  let appdataModule : BuildModule :=
    { buildsystem := "simple"
      name := "appdata_file"
      sources := [{ path := appdata_file, sha256 := appdataHash, type := "file" }]
      build_commands :=
        [ "mkdir -p /app/share/metainfo",
          "cp " ++ pathName appdata_file ++ " /app/share/metainfo" ]
      cleanup := none }
  let modules := [mainModule, gameShModule, desktopModule, appdataModule]
  let modules :=
    if iconFlag desc then
      [mainModule, iconModule appId, gameShModule, desktopModule, appdataModule]
    else modules
  let modules ←
    if patches.isEmpty then pure modules
    else do
      let (sources, build_commands) ← processPatches env patches
      let build_commands := build_commands ++ [recompileCommand]
      match modules with
      | [] => pure ([] : List BuildModule)
      | m0 :: rest =>
        pure ({ m0 with
                  sources := m0.sources ++ sources
                  build_commands := m0.build_commands ++ build_commands } :: rest)
  .ok
    { sdk := "org.freedesktop.Sdk"
      runtime := "org.freedesktop.Platform"
      runtime_version := "21.08"
      app_id := appId
      no_debuginfo := true
      strip := false
      command := "game.sh"
      finish_args :=
        [ "--socket=pulseaudio",
          "--socket=wayland",
          "--socket=x11",
          "--device=dri" ]
      modules := modules }

/-- The hash a successful `sha256` call returns on a readable file. -/
def hashOf (env : Env) (p : String) : String :=
  env.hash ((env.fs p).getD [])

/-- A patch pair rendered as the tuple produced by `--patches`'
`x.split('=')` when the split has exactly two parts. -/
def pairSpec (x : String × String) : List String :=
  [x.1, x.2]

/-- The source reference a patch pair contributes to the main module. -/
def patchSource (env : Env) (x : String × String) : Source :=
  { path := pathAbsolute env.cwd x.1
    sha256 := hashOf env (pathAbsolute env.cwd x.1)
    type := "file" }

/-- The move command a patch pair contributes to the main module. -/
def moveCommand (env : Env) (x : String × String) : String :=
  "mv " ++ pathName (pathAbsolute env.cwd x.1) ++ " /app/lib/game/" ++ x.2

/-- The main content module as assembled on success. -/
def assembledMainModule (env : Env) (desc : Description) (input : String)
    (ps : List (String × String)) : BuildModule :=
  { buildsystem := "simple"
    name := sanitize_name desc.common.name
    sources := { path := input, sha256 := hashOf env input, type := "archive" }
      :: ps.map (patchSource env)
    build_commands := mainBuildCommands
      ++ (if ps.isEmpty then [] else ps.map (moveCommand env) ++ [recompileCommand])
    cleanup := some mainCleanup }

/-- The descriptor-install module as assembled on success. -/
def assembledDesktopModule (env : Env) (desktop_file : String) : BuildModule :=
  { buildsystem := "simple"
    name := "desktop_file"
    sources := [{ path := desktop_file, sha256 := hashOf env desktop_file, type := "file" }]
    build_commands :=
      [ "mkdir -p /app/share/applications",
        "cp " ++ pathName desktop_file ++ " /app/share/applications" ]
    cleanup := none }

/-- The catalog-install module as assembled on success. -/
def assembledAppdataModule (env : Env) (appdata_file : String) : BuildModule :=
  { buildsystem := "simple"
    name := "appdata_file"
    sources := [{ path := appdata_file, sha256 := hashOf env appdata_file, type := "file" }]
    build_commands :=
      [ "mkdir -p /app/share/metainfo",
        "cp " ++ pathName appdata_file ++ " /app/share/metainfo" ]
    cleanup := none }

/-- The full manifest as assembled on success. -/
def assembledManifest (env : Env) (desc : Description) (input : String) (appId : String)
    (desktop_file appdata_file : String) (ps : List (String × String)) : Manifest :=
  { sdk := "org.freedesktop.Sdk"
    runtime := "org.freedesktop.Platform"
    runtime_version := "21.08"
    app_id := appId
    no_debuginfo := true
    strip := false
    command := "game.sh"
    finish_args :=
      [ "--socket=pulseaudio",
        "--socket=wayland",
        "--socket=x11",
        "--device=dri" ]
    modules := assembledMainModule env desc input ps
      :: ((if iconFlag desc then [iconModule appId] else [])
          ++ [gameShModule, assembledDesktopModule env desktop_file,
              assembledAppdataModule env appdata_file]) }

lemma exbind_ok {α β : Type} (a : α) (f : α → Except Err β) :
    (Except.ok a >>= f) = f a := rfl

lemma exbind_error {α β : Type} (e : Err) (f : α → Except Err β) :
    ((Except.error e : Except Err α) >>= f) = Except.error e := rfl

lemma sha256_eq_ok {env : Env} {p v : String} (h : sha256 env p = .ok v) :
    v = hashOf env p := by
  unfold sha256 at h
  unfold hashOf
  cases hfs : env.fs p <;> rw [hfs] at h <;> simp_all

lemma sha256_of_isSome {env : Env} {p : String} (h : (env.fs p).isSome) :
    sha256 env p = .ok (hashOf env p) := by
  unfold sha256 hashOf
  cases hfs : env.fs p
  · rw [hfs] at h; simp at h
  · simp

lemma sha256_of_none {env : Env} {p : String} (h : env.fs p = none) :
    sha256 env p = .error .ioError := by
  unfold sha256
  rw [h]

/-- On a list of well-split patch pairs, a successful `processPatches`
run returns exactly the per-pair sources and move commands. -/
lemma processPatches_ok {env : Env} {ps : List (String × String)}
    {r : List Source × List String}
    (h : processPatches env (ps.map pairSpec) = .ok r) :
    r = (ps.map (patchSource env), ps.map (moveCommand env)) := by
  induction ps generalizing r with
  | nil => simpa [processPatches] using h.symm
  | cons x rest ih =>
    rw [List.map_cons] at h
    simp only [pairSpec, processPatches] at h
    cases hs : sha256 env (pathAbsolute env.cwd x.1) with
    | error e => rw [hs] at h; simp [exbind_error] at h
    | ok v =>
      rw [hs, exbind_ok] at h
      cases hr : processPatches env (rest.map pairSpec) with
      | error e => rw [hr] at h; simp [exbind_error] at h
      | ok r' =>
        rw [hr, exbind_ok] at h
        obtain ⟨srcs, cmds⟩ := r'
        have := ih hr
        simp only [Prod.mk.injEq] at this
        cases h
        simp [patchSource, moveCommand, this.1, this.2, ← sha256_eq_ok hs]

/-- On a list of well-split pairs whose files are all readable,
`processPatches` succeeds. -/
lemma processPatches_total {env : Env} {ps : List (String × String)}
    (h : ∀ x ∈ ps, (env.fs (pathAbsolute env.cwd x.1)).isSome) :
    processPatches env (ps.map pairSpec) =
      .ok (ps.map (patchSource env), ps.map (moveCommand env)) := by
  induction ps with
  | nil => simp [processPatches]
  | cons x rest ih =>
    have hx := h x (by simp)
    have hrest := ih fun y hy => h y (by simp [hy])
    rw [List.map_cons]
    simp only [pairSpec, processPatches]
    rw [sha256_of_isSome hx, exbind_ok, hrest, exbind_ok]
    simp [patchSource, moveCommand]

lemma expure {α : Type} (a : α) : (pure a : Except Err α) = .ok a := rfl

/-- With every patch file unreadable somewhere in the list (and every
specification well split), `processPatches` raises the hashing
`IOError`. -/
lemma processPatches_err {env : Env} {ps : List (String × String)}
    (h : ∃ x ∈ ps, env.fs (pathAbsolute env.cwd x.1) = none) :
    processPatches env (ps.map pairSpec) = .error .ioError := by
  induction ps with
  | nil => simp at h
  | cons x rest ih =>
    rw [List.map_cons]
    simp only [pairSpec, processPatches]
    cases hx : env.fs (pathAbsolute env.cwd x.1) with
    | none => rw [sha256_of_none hx, exbind_error]
    | some b =>
      have hx' : (env.fs (pathAbsolute env.cwd x.1)).isSome := by rw [hx]; rfl
      rw [sha256_of_isSome hx', exbind_ok]
      obtain ⟨y, hy, hyn⟩ := h
      rcases List.mem_cons.mp hy with rfl | hyr
      · rw [hyn] at hx; cases hx
      · rw [ih ⟨y, hyr, hyn⟩, exbind_error]

/-- When every referenced file is readable, `dump_json` succeeds and
returns exactly the assembled manifest. -/
lemma dump_json_total {env : Env} {desc : Description} {input appId dfile afile : String}
    {ps : List (String × String)}
    (hin : (env.fs input).isSome) (hdf : (env.fs dfile).isSome)
    (haf : (env.fs afile).isSome)
    (hp : ∀ x ∈ ps, (env.fs (pathAbsolute env.cwd x.1)).isSome) :
    dump_json env desc input appId dfile afile (ps.map pairSpec) =
      .ok (assembledManifest env desc input appId dfile afile ps) := by
  unfold dump_json
  rw [sha256_of_isSome hin, exbind_ok, sha256_of_isSome hdf, exbind_ok,
      sha256_of_isSome haf, exbind_ok]
  cases ps with
  | nil =>
    cases hic : iconFlag desc <;>
      simp [hic, assembledManifest, assembledMainModule, assembledDesktopModule,
        assembledAppdataModule, expure, exbind_ok]
  | cons x rest =>
    rw [processPatches_total hp]
    simp only [List.map_cons, List.isEmpty_cons, Bool.false_eq_true, if_false,
      exbind_ok, expure]
    cases hic : iconFlag desc <;>
      simp [hic, assembledManifest, assembledMainModule, assembledDesktopModule,
        assembledAppdataModule]

/-- When any referenced file is unreadable (and every patch
specification is well split), `dump_json` aborts with the hashing
`IOError`. -/
lemma dump_json_err {env : Env} {desc : Description} {input appId dfile afile : String}
    {ps : List (String × String)}
    (h : env.fs input = none ∨ env.fs dfile = none ∨ env.fs afile = none ∨
      ∃ x ∈ ps, env.fs (pathAbsolute env.cwd x.1) = none) :
    dump_json env desc input appId dfile afile (ps.map pairSpec) =
      .error .ioError := by
  unfold dump_json
  cases hin : env.fs input with
  | none => rw [sha256_of_none hin, exbind_error]
  | some b1 =>
    have hin' : (env.fs input).isSome := by rw [hin]; rfl
    rw [sha256_of_isSome hin', exbind_ok]
    cases hdf : env.fs dfile with
    | none => rw [sha256_of_none hdf, exbind_error]
    | some b2 =>
      have hdf' : (env.fs dfile).isSome := by rw [hdf]; rfl
      rw [sha256_of_isSome hdf', exbind_ok]
      cases haf : env.fs afile with
      | none => rw [sha256_of_none haf, exbind_error]
      | some b3 =>
        have haf' : (env.fs afile).isSome := by rw [haf]; rfl
        rw [sha256_of_isSome haf', exbind_ok]
        rcases h with h | h | h | h
        · rw [h] at hin; cases hin
        · rw [h] at hdf; cases hdf
        · rw [h] at haf; cases haf
        · obtain ⟨x, hx, hxn⟩ := h
          cases ps with
          | nil => cases hx
          | cons y rest =>
            rw [processPatches_err ⟨x, hx, hxn⟩]
            simp only [List.map_cons, List.isEmpty_cons, Bool.false_eq_true,
              if_false, exbind_error]

/-- A successful `dump_json` run on well-split patch pairs returns
exactly the assembled manifest. -/
lemma dump_json_ok_elim {env : Env} {desc : Description} {input appId dfile afile : String}
    {ps : List (String × String)} {m : Manifest}
    (h : dump_json env desc input appId dfile afile (ps.map pairSpec) = .ok m) :
    m = assembledManifest env desc input appId dfile afile ps := by
  by_cases hin : (env.fs input).isSome
  · by_cases hdf : (env.fs dfile).isSome
    · by_cases haf : (env.fs afile).isSome
      · by_cases hp : ∀ x ∈ ps, (env.fs (pathAbsolute env.cwd x.1)).isSome
        · rw [dump_json_total hin hdf haf hp] at h
          exact (Except.ok.inj h).symm
        · push_neg at hp
          obtain ⟨x, hx, hxn⟩ := hp
          rw [dump_json_err (Or.inr (Or.inr (Or.inr
            ⟨x, hx, Option.not_isSome_iff_eq_none.mp hxn⟩)))] at h
          cases h
      · rw [dump_json_err (Or.inr (Or.inr (Or.inl
          (Option.not_isSome_iff_eq_none.mp haf))))] at h
        cases h
    · rw [dump_json_err (Or.inr (Or.inl (Option.not_isSome_iff_eq_none.mp hdf)))] at h
      cases h
  · rw [dump_json_err (Or.inl (Option.not_isSome_iff_eq_none.mp hin))] at h
    cases h

/-- Spec-side per-character sanitization rule (C4): a space becomes an
underscore, a colon is dropped, every other character is unchanged. -/
def sanitizeCharSpec (c : Char) : Option Char :=
  if c = ' ' then some '_' else if c = ':' then none else some c

lemma sanitize_name_data (name : String) :
    (sanitize_name name).data = name.data.filterMap sanitizeCharSpec := by
  show ((name.data.map fun c => if c = ' ' then '_' else c).filter
    fun c => c ≠ ':') = _
  simp only [ne_eq, decide_not]
  induction name.data with
  | nil => rfl
  | cons c cs ih =>
    by_cases h1 : c = ' '
    · subst h1; simp [sanitizeCharSpec, ih]
    · by_cases h2 : c = ':'
      · subst h2; simp [sanitizeCharSpec, ih]
      · simp [sanitizeCharSpec, h1, h2, ih]

lemma appid_data (d : Description) :
    (appid d).data =
      d.common.reverse_url.data ++ '.' :: (sanitize_name d.common.name).data := by
  unfold appid
  rw [String.data_append, String.data_append]
  simp

lemma append_dot_inj {a b c d : List Char} (hb : '.' ∉ b) (hd : '.' ∉ d)
    (h : a ++ '.' :: b = c ++ '.' :: d) : a = c ∧ b = d := by
  induction a generalizing c with
  | nil =>
    cases c with
    | nil => simpa using h
    | cons y cs =>
      simp only [List.nil_append, List.cons_append, List.cons.injEq] at h
      exact absurd (h.2 ▸ List.mem_append_right cs (List.mem_cons_self '.' d)) hb
  | cons x as ih =>
    cases c with
    | nil =>
      simp only [List.nil_append, List.cons_append, List.cons.injEq] at h
      exact absurd (h.2.symm ▸ List.mem_append_right as (List.mem_cons_self '.' b)) hd
    | cons y cs =>
      simp only [List.cons_append, List.cons.injEq] at h
      obtain ⟨rfl, h2⟩ := h
      obtain ⟨rfl, rfl⟩ := ih h2
      exact ⟨rfl, rfl⟩

/-- C4: the synthesized app identifier is `reverse_url`, a dot, and the
sanitized display name, where sanitization is exactly: each space
becomes an underscore, then every colon is removed, and no other
character changes (stated per character of the name). -/
theorem claim4_appid_shape (d : Description) :
    appid d = d.common.reverse_url ++ "." ++ sanitize_name d.common.name ∧
    (sanitize_name d.common.name).data =
      d.common.name.data.filterMap sanitizeCharSpec :=
  ⟨rfl, sanitize_name_data d.common.name⟩

/-- Two descriptions exhibiting the failure of injectivity over distinct
`(reverse_url, sanitized name)` pairs: a dot inside the name shifts the
boundary. -/
def descDotted1 : Description :=
  { common := { reverse_url := "a.b", name := "c", categories := [] }
    appdata := { summary := "", description := "", content_rating := none,
                 releases := none, license := none }
    workarounds := none }

def descDotted2 : Description :=
  { common := { reverse_url := "a", name := "b.c", categories := [] }
    appdata := { summary := "", description := "", content_rating := none,
                 releases := none, license := none }
    workarounds := none }

/-- C5 counterexample: the two descriptions have distinct
`(reverse_url, sanitize(name))` pairs yet the same app identifier, so
synthesis is not injective over distinct pairs as claimed. -/
theorem claim5_counterexample :
    (descDotted1.common.reverse_url, sanitize_name descDotted1.common.name) ≠
      (descDotted2.common.reverse_url, sanitize_name descDotted2.common.name) ∧
    appid descDotted1 = appid descDotted2 := by
  refine ⟨by decide, ?_⟩
  rfl

/-- C5 (amended): synthesis is deterministic (equal `common` tables give
equal identifiers), and it is injective over distinct
`(reverse_url, sanitize(name))` pairs whenever neither sanitized name
contains a dot. -/
theorem claim5_appid_deterministic_injective (d1 d2 : Description) :
    (d1.common = d2.common → appid d1 = appid d2) ∧
    ('.' ∉ (sanitize_name d1.common.name).data →
     '.' ∉ (sanitize_name d2.common.name).data →
     (d1.common.reverse_url, sanitize_name d1.common.name) ≠
       (d2.common.reverse_url, sanitize_name d2.common.name) →
     appid d1 ≠ appid d2) := by
  constructor
  · intro h
    unfold appid
    rw [h]
  · intro h1 h2 hne heq
    have hd := congrArg String.data heq
    rw [appid_data, appid_data] at hd
    obtain ⟨hr, hs⟩ := append_dot_inj h1 h2 hd
    exact hne (by rw [Prod.mk.injEq]; exact ⟨String.ext hr, String.ext hs⟩)

/-- Two dot-free descriptions used to instantiate the amended C5. -/
def descPlain1 : Description :=
  { common := { reverse_url := "io", name := "Game One", categories := [] }
    appdata := { summary := "", description := "", content_rating := none,
                 releases := none, license := none }
    workarounds := none }

def descPlain2 : Description :=
  { common := { reverse_url := "io", name := "Game Two", categories := [] }
    appdata := { summary := "", description := "", content_rating := none,
                 releases := none, license := none }
    workarounds := none }

/-- Witness for the amended C5 at two concrete dot-free descriptions. -/
theorem claim5_witness : appid descPlain1 ≠ appid descPlain2 :=
  (claim5_appid_deterministic_injective descPlain1 descPlain2).2
    (by decide) (by decide) (by decide)

/-- C6: the metainfo document has a `content_rating` element iff the
description has the `content_rating` key, and a `releases` element iff
it has the `releases` key; an absent key contributes no element at
all. -/
theorem claim6_optional_blocks (d : Description) (appId : String) :
    ((create_appdata d appId).children.countP fun e => e.tag == "content_rating") =
      (if d.appdata.content_rating.isSome then 1 else 0) ∧
    ((create_appdata d appId).children.countP fun e => e.tag == "releases") =
      (if d.appdata.releases.isSome then 1 else 0) := by
  cases hcr : d.appdata.content_rating <;> cases hrl : d.appdata.releases <;>
    simp [create_appdata, Elem.tag, Elem.children, List.countP_append,
      List.countP_cons, hcr, hrl]

/-- The text entries of the `categories` element of a metainfo tree. -/
def categoriesOf (e : Elem) : List String :=
  match e.children.find? fun c => c.tag == "categories" with
  | some c => c.children.filterMap Elem.text
  | none => []

lemma texts_of_category_elems (l : List String) :
    List.filterMap (Elem.text ∘ fun c => Elem.mk "category" [] (some c) []) l = l := by
  induction l with
  | nil => rfl
  | cons c cs ih => simp [Elem.text, ih]

/-- C9: the category list of the launcher descriptor and the category
list of the catalog metadata both equal `"Game"` followed by the
description's categories — same fixed head, otherwise identical. -/
theorem claim9_categories (d : Description) (appId : String) :
    categoriesOf (create_appdata d appId) = "Game" :: d.common.categories ∧
    (create_desktop d appId).categories = "Game" :: d.common.categories := by
  refine ⟨?_, rfl⟩
  simp [categoriesOf, create_appdata, Elem.children, Elem.tag, Elem.text,
    List.filterMap_cons, texts_of_category_elems]

lemma moveCommand_ne_compile (env : Env) (x : String × String) :
    moveCommand env x ≠ compileCommand := by
  intro h
  have h2 := congrArg (fun s => s.data.head?) h
  simp only [moveCommand] at h2
  rw [String.data_append, String.data_append, String.data_append] at h2
  have h3 : "mv ".data = ['m', 'v', ' '] := rfl
  rw [h3] at h2
  have h4 : compileCommand.data.head? = some 'p' := rfl
  rw [h4] at h2
  simp [List.cons_append] at h2

/-- A successful `dump_json` run implies every referenced file was
readable. -/
lemma dump_json_ok_readable {env : Env} {desc : Description}
    {input appId dfile afile : String} {ps : List (String × String)} {m : Manifest}
    (h : dump_json env desc input appId dfile afile (ps.map pairSpec) = .ok m) :
    (env.fs input).isSome ∧ (env.fs dfile).isSome ∧ (env.fs afile).isSome ∧
      ∀ x ∈ ps, (env.fs (pathAbsolute env.cwd x.1)).isSome := by
  refine ⟨?_, ?_, ?_, ?_⟩
  · by_contra hc
    rw [dump_json_err (Or.inl (Option.not_isSome_iff_eq_none.mp hc))] at h
    cases h
  · by_contra hc
    rw [dump_json_err (Or.inr (Or.inl (Option.not_isSome_iff_eq_none.mp hc)))] at h
    cases h
  · by_contra hc
    rw [dump_json_err (Or.inr (Or.inr (Or.inl
      (Option.not_isSome_iff_eq_none.mp hc))))] at h
    cases h
  · intro x hx
    by_contra hc
    rw [dump_json_err (Or.inr (Or.inr (Or.inr
      ⟨x, hx, Option.not_isSome_iff_eq_none.mp hc⟩)))] at h
    cases h

/-- C1: in a successful manifest, the main module's build-command list
is the four base commands when no patches are supplied (containing the
compile step exactly once), and with N patch pairs it is the base
commands followed by the N move commands and then exactly one trailing
recompile command, identical to the original compile step; no move
command is a recompile command. -/
theorem claim1_main_build_commands (env : Env) (desc : Description)
    (input appId dfile afile : String) (ps : List (String × String)) (m : Manifest)
    (h : dump_json env desc input appId dfile afile (ps.map pairSpec) = .ok m) :
    ∃ m0 rest, m.modules = m0 :: rest ∧
      m0.build_commands = mainBuildCommands ++
        (if ps.isEmpty then [] else ps.map (moveCommand env) ++ [recompileCommand]) ∧
      mainBuildCommands.count compileCommand = 1 ∧
      recompileCommand = compileCommand ∧
      (ps.map (moveCommand env)).length = ps.length ∧
      (∀ c ∈ ps.map (moveCommand env), c ≠ recompileCommand) := by
  rw [dump_json_ok_elim h]
  refine ⟨assembledMainModule env desc input ps, _, rfl, rfl, by decide, rfl,
    ps.length_map _, ?_⟩
  intro c hc
  obtain ⟨x, -, rfl⟩ := List.mem_map.mp hc
  exact moveCommand_ne_compile env x

/-- C2: in a successful manifest the module names are, in order: the
main content module, the icon module exactly when the icon flag is
enabled, then the launcher wrapper, the descriptor install and the
catalog install modules — 5 modules with the flag enabled, 4 without —
and the flag defaults to enabled when the `workarounds` table or its
`icon` key is absent. -/
theorem claim2_module_order (env : Env) (desc : Description)
    (input appId dfile afile : String) (ps : List (String × String)) (m : Manifest)
    (h : dump_json env desc input appId dfile afile (ps.map pairSpec) = .ok m) :
    m.modules.map BuildModule.name =
      sanitize_name desc.common.name ::
        ((if iconFlag desc then ["icon"] else []) ++
          ["game_sh", "desktop_file", "appdata_file"]) ∧
    m.modules.length = (if iconFlag desc then 5 else 4) ∧
    (desc.workarounds = none → iconFlag desc = true) ∧
    (∀ w, desc.workarounds = some w → w.icon = none → iconFlag desc = true) := by
  rw [dump_json_ok_elim h]
  refine ⟨?_, ?_, ?_, ?_⟩
  · cases hic : iconFlag desc <;>
      simp [hic, assembledManifest, assembledMainModule, iconModule, gameShModule,
        assembledDesktopModule, assembledAppdataModule]
  · cases hic : iconFlag desc <;> simp [hic, assembledManifest]
  · intro hw; simp [iconFlag, hw, Option.getD]
  · intro w hw hwi; simp [iconFlag, hw, hwi, Option.getD]

/-- C10: in a successful manifest the main content module's cleanup list
is always the fixed glob list, which contains the pattern for installed
script sources alongside the platform-binary and compiled-unit-backup
patterns; patches do not change it. -/
theorem claim10_cleanup_rpy (env : Env) (desc : Description)
    (input appId dfile afile : String) (ps : List (String × String)) (m : Manifest)
    (h : dump_json env desc input appId dfile afile (ps.map pairSpec) = .ok m) :
    ∃ m0 rest, m.modules = m0 :: rest ∧
      m0.cleanup = some mainCleanup ∧
      "*.rpy" ∈ mainCleanup ∧ "*.rpyc.bak" ∈ mainCleanup ∧
      "*.exe" ∈ mainCleanup ∧ "*.app" ∈ mainCleanup := by
  rw [dump_json_ok_elim h]
  exact ⟨assembledMainModule env desc input ps, _, rfl, rfl, by decide, by decide,
    by decide, by decide⟩

/-- C3: in a successful manifest, every source reference of every module
carries as `sha256` exactly the digest of the referenced path's bytes as
read at assembly time: re-hashing the path yields the embedded digest. -/
theorem claim3_source_digests (env : Env) (desc : Description)
    (input appId dfile afile : String) (ps : List (String × String)) (m : Manifest)
    (h : dump_json env desc input appId dfile afile (ps.map pairSpec) = .ok m) :
    ∀ mod ∈ m.modules, ∀ s ∈ mod.sources, sha256 env s.path = .ok s.sha256 := by
  obtain ⟨hin, hdf, haf, hp⟩ := dump_json_ok_readable h
  rw [dump_json_ok_elim h]
  intro mod hmod s hs
  simp only [assembledManifest, List.mem_cons, List.mem_append, List.mem_ite_nil_right,
    List.mem_singleton] at hmod
  rcases hmod with rfl | ⟨-, rfl | habs⟩ | rfl | rfl | rfl | habs2
  · simp only [assembledMainModule, List.mem_cons] at hs
    rcases hs with rfl | hs
    · exact sha256_of_isSome hin
    · obtain ⟨x, hx, rfl⟩ := List.mem_map.mp hs
      simpa [patchSource] using sha256_of_isSome (hp x hx)
  · simp [iconModule] at hs
  · exact absurd habs (List.not_mem_nil mod)
  · simp [gameShModule] at hs
  · simp only [assembledDesktopModule, List.mem_singleton] at hs
    subst hs
    exact sha256_of_isSome hdf
  · simp only [assembledAppdataModule, List.mem_singleton] at hs
    subst hs
    exact sha256_of_isSome haf
  · exact absurd habs2 (List.not_mem_nil mod)

/-- C7: when any referenced local file (archive, launcher descriptor,
catalog metadata, or a patch file) is unreadable, `dump_json` aborts
with the hashing `IOError` and produces no manifest. -/
theorem claim7_unreadable_aborts (env : Env) (desc : Description)
    (input appId dfile afile : String) (ps : List (String × String))
    (h : env.fs input = none ∨ env.fs dfile = none ∨ env.fs afile = none ∨
      ∃ x ∈ ps, env.fs (pathAbsolute env.cwd x.1) = none) :
    dump_json env desc input appId dfile afile (ps.map pairSpec) =
      .error .ioError ∧
    ∀ m : Manifest,
      dump_json env desc input appId dfile afile (ps.map pairSpec) ≠ .ok m := by
  refine ⟨dump_json_err h, fun m hm => ?_⟩
  rw [dump_json_err h] at hm
  cases hm

/-- With well-split readable pairs in front, a malformed specification
makes `processPatches` raise the configuration error. -/
lemma processPatches_config {env : Env} {good : List (String × String)}
    {bad : List String} {rest : List (List String)}
    (hgood : ∀ x ∈ good, (env.fs (pathAbsolute env.cwd x.1)).isSome)
    (hbad : bad.length ≠ 2) :
    processPatches env (good.map pairSpec ++ bad :: rest) =
      .error .configurationError := by
  induction good with
  | nil =>
    rw [List.map_nil, List.nil_append]
    match bad, hbad with
    | [], _ => simp [processPatches]
    | [b], _ => simp [processPatches]
    | [b1, b2], hb => exact absurd rfl hb
    | b1 :: b2 :: b3 :: bs, _ => simp [processPatches]
  | cons g gs ih =>
    rw [List.map_cons, List.cons_append]
    simp only [pairSpec, processPatches]
    rw [sha256_of_isSome (hgood g (by simp)), exbind_ok,
      ih fun y hy => hgood y (by simp [hy]), exbind_error]

/-- C8: when a patch specification does not split into exactly one
source and one destination (no separator, or more than one), manifest
assembly fails with the configuration error (assuming assembly reaches
the malformed entry: the fixed files and the earlier well-formed patch
files are readable). -/
theorem claim8_malformed_patch (env : Env) (desc : Description)
    (input appId dfile afile : String) (good : List (String × String))
    (bad : List String) (rest : List (List String))
    (hin : (env.fs input).isSome) (hdf : (env.fs dfile).isSome)
    (haf : (env.fs afile).isSome)
    (hgood : ∀ x ∈ good, (env.fs (pathAbsolute env.cwd x.1)).isSome)
    (hbad : bad.length ≠ 2) :
    dump_json env desc input appId dfile afile (good.map pairSpec ++ bad :: rest) =
      .error .configurationError := by
  unfold dump_json
  rw [sha256_of_isSome hin, exbind_ok, sha256_of_isSome hdf, exbind_ok,
    sha256_of_isSome haf, exbind_ok]
  rw [processPatches_config hgood hbad]
  cases good with
  | nil =>
    simp only [List.map_nil, List.nil_append, List.isEmpty_cons,
      Bool.false_eq_true, if_false, exbind_error]
  | cons g gs =>
    simp only [List.map_cons, List.cons_append, List.isEmpty_cons,
      Bool.false_eq_true, if_false, exbind_error]

/-- A concrete environment in which every file is readable. -/
def sampleEnv : Env :=
  { fs := fun _ => some [], hash := fun _ => "h", cwd := "/w" }

/-- A concrete environment in which no file is readable. -/
def sampleEnvMissing : Env :=
  { fs := fun _ => none, hash := fun _ => "h", cwd := "/w" }

/-- A concrete description with default workarounds. -/
def sampleDesc : Description :=
  { common := { reverse_url := "io.example", name := "My Game",
                categories := ["Simulation"] }
    appdata := { summary := "s", description := "", content_rating := none,
                 releases := none, license := none }
    workarounds := none }

/-- One concrete patch pair. -/
def samplePatches : List (String × String) := [("p.rpy", "game/p.rpy")]

/-- The manifest of a patchless sample run. -/
def sampleManifest : Manifest :=
  assembledManifest sampleEnv sampleDesc "in.tar" "io.example.My_Game"
    "d.desktop" "a.xml" []

/-- The manifest of a one-patch sample run. -/
def sampleManifestP : Manifest :=
  assembledManifest sampleEnv sampleDesc "in.tar" "io.example.My_Game"
    "d.desktop" "a.xml" samplePatches

/-- Witness for C1 at a concrete one-patch run. -/
theorem claim1_witness :
    ∃ m0 rest, sampleManifestP.modules = m0 :: rest ∧
      m0.build_commands = mainBuildCommands ++
        (if samplePatches.isEmpty then []
         else samplePatches.map (moveCommand sampleEnv) ++ [recompileCommand]) ∧
      mainBuildCommands.count compileCommand = 1 ∧
      recompileCommand = compileCommand ∧
      (samplePatches.map (moveCommand sampleEnv)).length = samplePatches.length ∧
      (∀ c ∈ samplePatches.map (moveCommand sampleEnv), c ≠ recompileCommand) :=
  claim1_main_build_commands sampleEnv sampleDesc "in.tar" "io.example.My_Game"
    "d.desktop" "a.xml" samplePatches sampleManifestP rfl

/-- Witness for C2 at a concrete patchless run. -/
theorem claim2_witness :
    sampleManifest.modules.map BuildModule.name =
      sanitize_name sampleDesc.common.name ::
        ((if iconFlag sampleDesc then ["icon"] else []) ++
          ["game_sh", "desktop_file", "appdata_file"]) ∧
    sampleManifest.modules.length = (if iconFlag sampleDesc then 5 else 4) ∧
    (sampleDesc.workarounds = none → iconFlag sampleDesc = true) ∧
    (∀ w, sampleDesc.workarounds = some w → w.icon = none →
      iconFlag sampleDesc = true) :=
  claim2_module_order sampleEnv sampleDesc "in.tar" "io.example.My_Game"
    "d.desktop" "a.xml" [] sampleManifest rfl

/-- Witness for C3 at the archive reference of a concrete run. -/
theorem claim3_witness :
    sha256 sampleEnv "in.tar" = .ok (hashOf sampleEnv "in.tar") :=
  claim3_source_digests sampleEnv sampleDesc "in.tar" "io.example.My_Game"
    "d.desktop" "a.xml" [] sampleManifest rfl
    (assembledMainModule sampleEnv sampleDesc "in.tar" []) (by decide)
    { path := "in.tar", sha256 := hashOf sampleEnv "in.tar", type := "archive" }
    (by decide)

/-- Witness for C7 at a concrete run whose archive is unreadable. -/
theorem claim7_witness :
    dump_json sampleEnvMissing sampleDesc "in.tar" "io.example.My_Game"
      "d.desktop" "a.xml" (List.map pairSpec []) = .error .ioError :=
  (claim7_unreadable_aborts sampleEnvMissing sampleDesc "in.tar"
    "io.example.My_Game" "d.desktop" "a.xml" [] (Or.inl rfl)).1

/-- Witness for C8 at a concrete run with a separator-free patch
specification. -/
theorem claim8_witness :
    dump_json sampleEnv sampleDesc "in.tar" "io.example.My_Game"
      "d.desktop" "a.xml" [["nosep"]] = .error .configurationError :=
  claim8_malformed_patch sampleEnv sampleDesc "in.tar" "io.example.My_Game"
    "d.desktop" "a.xml" [] ["nosep"] [] (by decide) (by decide) (by decide)
    (by simp) (by decide)

/-- Witness for C10 at a concrete patchless run. -/
theorem claim10_witness :
    ∃ m0 rest, sampleManifest.modules = m0 :: rest ∧
      m0.cleanup = some mainCleanup ∧
      "*.rpy" ∈ mainCleanup ∧ "*.rpyc.bak" ∈ mainCleanup ∧
      "*.exe" ∈ mainCleanup ∧ "*.app" ∈ mainCleanup :=
  claim10_cleanup_rpy sampleEnv sampleDesc "in.tar" "io.example.My_Game"
    "d.desktop" "a.xml" [] sampleManifest rfl
